import Mathlib

/-!
Verification of the Minecraft MCP command-dispatch pipeline.

Shallow embedding of `mcp_server.py` (MinecraftCommandQueue,
MinecraftWorldManager, MCPServer), `websocket_bridge.py`
(MinecraftWebSocketBridge, BridgeManager) and `main.py` (MCPService).

Modelling conventions:
* the Python `asyncio.Queue` is a Lean list, head = front of the queue;
* `datetime.now().timestamp()` is made an explicit `Nat` clock reading,
  passed to each enqueue; the command id `f"cmd_{ts}"` is rendered by
  `commandIdOf` through an explicit decimal encoder;
* dictionaries of metadata are association lists over a small value type;
* logging is modelled by a list of `LogEntry` values appended by each step;
* exceptions: none of the modelled source paths contain a `raise`; every
  modelled operation is a total Lean function.
-/

/-- 3D position, `BlockPosition` in `mcp_server.py`. -/
structure BlockPosition where
  x : Int
  y : Int
  z : Int
deriving DecidableEq, Repr

/-- JSON-compatible metadata values used by the builder functions. -/
inductive MetaValue where
  | str : String → MetaValue
  | int : Int → MetaValue
  | pos : BlockPosition → MetaValue
deriving DecidableEq, Repr

/-- `metadata` dictionaries: string keys to values. -/
abbrev Metadata := List (String × MetaValue)

/-- Decimal digit to character, as Python `str` renders digits. -/
def digitChar (d : Nat) : Char :=
  match d with
  | 0 => '0'
  | 1 => '1'
  | 2 => '2'
  | 3 => '3'
  | 4 => '4'
  | 5 => '5'
  | 6 => '6'
  | 7 => '7'
  | 8 => '8'
  | _ => '9'

/-- Numeric value of a decimal digit character. -/
def digitVal (c : Char) : Nat := c.toNat - 48

/-- Big-endian decimal digit characters, structured with a fuel argument
so that it is structurally recursive; `fuel` bounds the recursion depth
and any `fuel ≥ n` suffices. -/
def natCharsAux : Nat → Nat → List Char
  | 0, _ => []
  | fuel + 1, n =>
      if n < 10 then [digitChar n]
      else natCharsAux fuel (n / 10) ++ [digitChar (n % 10)]

/-- Big-endian decimal digit characters of `n`, as Python `str(n)`. -/
def natChars (n : Nat) : List Char := natCharsAux (n + 1) n

/-- Decode a big-endian decimal character list back to the number. -/
def decodeChars (l : List Char) : Nat :=
  l.foldl (fun acc c => acc * 10 + digitVal c) 0

/-- The command id generated at clock reading `t`:
`f"cmd_{datetime.now().timestamp()}"` in `add_command`. -/
def commandIdOf (t : Nat) : String :=
  String.mk (['c', 'm', 'd', '_'] ++ natChars t)

/-- Recover the clock reading embedded in a generated command id. -/
def commandIdValue (s : String) : Nat := decodeChars (s.data.drop 4)

/-- One Command Record, the dict built in
`MinecraftCommandQueue.add_command`. -/
structure CommandData where
  id : String
  command : String
  metadata : Metadata
  timestamp : Nat
  status : String
deriving DecidableEq, Repr

/-- The record freshly constructed by `add_command` at clock `t`. -/
def mkRecord (t : Nat) (command : String) (metadata : Metadata) : CommandData :=
  { id := commandIdOf t
    command := command
    metadata := metadata
    timestamp := t
    status := "queued" }

/-- `MinecraftCommandQueue` state: FIFO queue plus bounded history. -/
structure MinecraftCommandQueue where
  command_queue : List CommandData
  command_history : List CommandData
  max_history : Nat
deriving DecidableEq, Repr

/-- `MinecraftCommandQueue.__init__`: empty queue, empty history,
capacity 1000. -/
def initQueue : MinecraftCommandQueue :=
  { command_queue := [], command_history := [], max_history := 1000 }

/-- `_add_to_history`: append, then `pop(0)` when the length exceeds
`max_history`. -/
def addToHistory (h : List CommandData) (maxH : Nat) (cd : CommandData) :
    List CommandData :=
  let h2 := h ++ [cd]
  if maxH < h2.length then h2.drop 1 else h2

/-- `add_command`: build the record with status "queued", put it on the
queue, add it to history, return the generated id. -/
def add_command (q : MinecraftCommandQueue) (t : Nat) (command : String)
    (metadata : Metadata) : String × MinecraftCommandQueue :=
  let cd := mkRecord t command metadata
  (cd.id,
    { q with
      command_queue := q.command_queue ++ [cd]
      command_history := addToHistory q.command_history q.max_history cd })

/-- `get_next_command`: remove and return the oldest queued record, or
`none` on timeout (empty queue). -/
def get_next_command (q : MinecraftCommandQueue) :
    Option CommandData × MinecraftCommandQueue :=
  match q.command_queue with
  | [] => (none, q)
  | cd :: rest => (some cd, { q with command_queue := rest })

/-- `get_history`: Python `self.command_history[-limit:]`.  A negative
start index `-limit` with `limit = 0` degenerates to the whole list. -/
def get_history (q : MinecraftCommandQueue) (limit : Nat) :
    List CommandData :=
  if limit = 0 then q.command_history
  else q.command_history.drop (q.command_history.length - limit)

/-- Protocol text of `place_block`. -/
def place_block_command (block_type : String) (p : BlockPosition)
    (data_value : Int) : String :=
  "setblock " ++ toString p.x ++ " " ++ toString p.y ++ " " ++ toString p.z
    ++ " " ++ block_type ++ " " ++ toString data_value

/-- Protocol text of `remove_block`. -/
def remove_block_command (p : BlockPosition) : String :=
  "setblock " ++ toString p.x ++ " " ++ toString p.y ++ " " ++ toString p.z
    ++ " air"

/-- Protocol text of `fill_area`. -/
def fill_area_command (fp tp : BlockPosition) (block_type fill_mode : String) :
    String :=
  "fill " ++ toString fp.x ++ " " ++ toString fp.y ++ " " ++ toString fp.z
    ++ " " ++ toString tp.x ++ " " ++ toString tp.y ++ " " ++ toString tp.z
    ++ " " ++ block_type ++ " " ++ fill_mode

/-- Protocol text of `clone_area`. -/
def clone_area_command (fp tp dst : BlockPosition) (clone_mode : String) :
    String :=
  "clone " ++ toString fp.x ++ " " ++ toString fp.y ++ " " ++ toString fp.z
    ++ " " ++ toString tp.x ++ " " ++ toString tp.y ++ " " ++ toString tp.z
    ++ " " ++ toString dst.x ++ " " ++ toString dst.y ++ " " ++ toString dst.z
    ++ " " ++ clone_mode

/-- `MinecraftWorldManager.place_block`: format the setblock command and
enqueue it with its metadata. -/
def place_block (q : MinecraftCommandQueue) (t : Nat) (block_type : String)
    (p : BlockPosition) (data_value : Int) : String × MinecraftCommandQueue :=
  add_command q t (place_block_command block_type p data_value)
    [("action", MetaValue.str "place_block"),
     ("block_type", MetaValue.str block_type),
     ("position", MetaValue.pos p)]

/-- `MinecraftWorldManager.remove_block`. -/
def remove_block (q : MinecraftCommandQueue) (t : Nat) (p : BlockPosition) :
    String × MinecraftCommandQueue :=
  add_command q t (remove_block_command p)
    [("action", MetaValue.str "remove_block"),
     ("position", MetaValue.pos p)]

/-- Metadata dict built by `fill_area`. -/
def fill_area_meta (fp tp : BlockPosition) (block_type fill_mode : String) :
    Metadata :=
  [("action", MetaValue.str "fill_area"),
   ("from", MetaValue.pos fp),
   ("to", MetaValue.pos tp),
   ("block_type", MetaValue.str block_type),
   ("mode", MetaValue.str fill_mode)]

/-- `MinecraftWorldManager.fill_area`: formats and enqueues the fill
command.  Note: the source performs no validation of `fill_mode`. -/
def fill_area (q : MinecraftCommandQueue) (t : Nat) (fp tp : BlockPosition)
    (block_type fill_mode : String) : String × MinecraftCommandQueue :=
  add_command q t (fill_area_command fp tp block_type fill_mode)
    (fill_area_meta fp tp block_type fill_mode)

/-- Metadata dict built by `clone_area`. -/
def clone_area_meta (fp tp dst : BlockPosition) (clone_mode : String) :
    Metadata :=
  [("action", MetaValue.str "clone_area"),
   ("from", MetaValue.pos fp),
   ("to", MetaValue.pos tp),
   ("destination", MetaValue.pos dst),
   ("mode", MetaValue.str clone_mode)]

/-- `MinecraftWorldManager.clone_area`: formats and enqueues the clone
command.  Note: the source performs no validation of `clone_mode`. -/
def clone_area (q : MinecraftCommandQueue) (t : Nat)
    (fp tp dst : BlockPosition) (clone_mode : String) :
    String × MinecraftCommandQueue :=
  add_command q t (clone_area_command fp tp dst clone_mode)
    (clone_area_meta fp tp dst clone_mode)

/-- `MinecraftWorldManager.destroy_area`: delegates to `fill_area` with
block "air" and mode "replace". -/
def destroy_area (q : MinecraftCommandQueue) (t : Nat)
    (fp tp : BlockPosition) : String × MinecraftCommandQueue :=
  fill_area q t fp tp "air" "replace"

/-- `MinecraftWorldManager.execute_command`: raw command text. -/
def execute_command (q : MinecraftCommandQueue) (t : Nat)
    (command : String) : String × MinecraftCommandQueue :=
  add_command q t command
    [("action", MetaValue.str "raw_command"),
     ("command", MetaValue.str command)]

/-- The fill modes listed as valid in the spec and the REST layer. -/
def validFillModes : List String :=
  ["replace", "destroy", "keep", "hollow", "outline"]

/-- The clone modes listed as valid in the spec and the REST layer. -/
def validCloneModes : List String :=
  ["replace", "masked", "filtered"]

/-- A connected websocket client, as held in
`MinecraftWebSocketBridge.minecraft_client`.  `sendOk` models whether a
transport write on this connection succeeds (the `try` branch of
`send_command`) or raises (the `except` branch, which returns `False`). -/
structure Client where
  cid : Nat
  sendOk : Bool
deriving DecidableEq, Repr

/-- Log entries emitted by the modelled code paths. -/
inductive LogEntry where
  | queuedLog : String → LogEntry
  | sentLog : String → LogEntry
  | sendFailedLog : String → LogEntry
  | processedOnlyLog : String → LogEntry
  | resultLog : String → Bool → LogEntry
  | connectedLog : Nat → LogEntry
  | disconnectedLog : LogEntry
deriving DecidableEq, Repr

/-- `MinecraftWebSocketBridge.send_command`: returns `False` when no
client is attached or the write raises, `True` on a successful write.
It never raises to its caller. -/
def send_command (client : Option Client) (_cd : CommandData) : Bool :=
  match client with
  | none => false
  | some c => c.sendOk

/-- `MinecraftWebSocketBridge.is_connected`:
`self.minecraft_client is not None`. -/
def is_connected (client : Option Client) : Bool := client.isSome

/-- State of the running bridge system: the shared ledger, the current
session, the log, and two ghost lists recording every record ever
enqueued and every record ever drained by the bridge loop. -/
structure SysState where
  q : MinecraftCommandQueue
  client : Option Client
  log : List LogEntry
  enqueued : List CommandData
  dequeued : List CommandData
deriving DecidableEq, Repr

/-- The freshly started system: empty ledger, no session. -/
def initSys : SysState :=
  { q := initQueue, client := none, log := [], enqueued := [], dequeued := [] }

/-- Events of the bridge system. -/
inductive Event where
  | enq : Nat → String → Metadata → Event
  | bridgeStep : Event
  | connect : Client → Event
  | disconnect : Event
  | result : String → Bool → Event
deriving DecidableEq, Repr

/-- One event of the system:
* `enq t c m` — a builder calls `add_command` at clock `t`;
* `bridgeStep` — one iteration of `BridgeManager._process_commands`:
  `get_next_command`, and if a record was returned, `send_command` it and
  log the outcome; nothing is re-queued and no status is written;
* `connect c` — `_handle_client` entry: `self.minecraft_client = websocket`
  (last-connection-wins replacement);
* `disconnect` — the `finally` clause of any terminating handler:
  `self.minecraft_client = None`, unconditionally;
* `result id ok` — `_handle_minecraft_message` on a `command_result`
  message: the result is logged; no record is looked up or modified. -/
def stepEvent (s : SysState) (e : Event) : SysState :=
  match e with
  | Event.enq t c m =>
      let r := add_command s.q t c m
      { s with
        q := r.2
        log := s.log ++ [LogEntry.queuedLog r.1]
        enqueued := s.enqueued ++ [mkRecord t c m] }
  | Event.bridgeStep =>
      match get_next_command s.q with
      | (none, q2) => { s with q := q2 }
      | (some cd, q2) =>
          if send_command s.client cd then
            { s with
              q := q2
              log := s.log ++ [LogEntry.sentLog cd.id]
              dequeued := s.dequeued ++ [cd] }
          else
            { s with
              q := q2
              log := s.log ++ [LogEntry.sendFailedLog cd.id]
              dequeued := s.dequeued ++ [cd] }
  | Event.connect c =>
      { s with
        client := some c
        log := s.log ++ [LogEntry.connectedLog c.cid] }
  | Event.disconnect =>
      { s with client := none, log := s.log ++ [LogEntry.disconnectedLog] }
  | Event.result cid ok =>
      { s with log := s.log ++ [LogEntry.resultLog cid ok] }

/-- Run a sequence of events from a state. -/
def runEvents (s : SysState) (evs : List Event) : SysState :=
  evs.foldl stepEvent s

/-- One iteration of `MCPServer._process_commands`: dequeue a record and
only log it — the TODO branch; nothing is forwarded to any session. -/
def serverLoggerStep (s : SysState) : SysState :=
  match get_next_command s.q with
  | (none, q2) => { s with q := q2 }
  | (some cd, q2) =>
      { s with
        q := q2
        log := s.log ++ [LogEntry.processedOnlyLog cd.id]
        dequeued := s.dequeued ++ [cd] }

/-- The dispatch loops started by the entry points. -/
inductive LoopKind where
  | serverLogger
  | bridgeForwarder
deriving DecidableEq, Repr

/-- `MCPServer.start`: `asyncio.create_task(self._process_commands())`. -/
def mcpServerStartTasks : List LoopKind := [LoopKind.serverLogger]

/-- `BridgeManager.start`: `asyncio.create_task(self._process_commands())`. -/
def bridgeManagerStartTasks : List LoopKind := [LoopKind.bridgeForwarder]

/-- `MCPService.start` (`main.py`): calls `MCPServer.start` and then
`BridgeManager.start` on the same shared command queue. -/
def mcpServiceStartTasks : List LoopKind :=
  mcpServerStartTasks ++ bridgeManagerStartTasks

theorem digitVal_digitChar (d : Nat) (h : d < 10) :
    digitVal (digitChar d) = d := by
  interval_cases d <;> rfl

theorem decodeChars_append_one (xs : List Char) (c : Char) :
    decodeChars (xs ++ [c]) = decodeChars xs * 10 + digitVal c := by
  unfold decodeChars
  rw [List.foldl_append]
  rfl

theorem decodeChars_natCharsAux (fuel n : Nat) (h : n < fuel) :
    decodeChars (natCharsAux fuel n) = n := by
  induction fuel generalizing n with
  | zero => omega
  | succ fuel ih =>
    unfold natCharsAux
    by_cases h10 : n < 10
    · rw [if_pos h10]
      have h1 : decodeChars [digitChar n] = digitVal (digitChar n) := by
        unfold decodeChars
        simp [List.foldl]
      rw [h1, digitVal_digitChar n h10]
    · rw [if_neg h10]
      rw [decodeChars_append_one]
      rw [ih (n / 10) (by omega)]
      rw [digitVal_digitChar (n % 10) (by omega)]
      omega

theorem decodeChars_natChars (n : Nat) : decodeChars (natChars n) = n :=
  decodeChars_natCharsAux (n + 1) n (Nat.lt_succ_self n)

theorem natChars_injective {m n : Nat} (h : natChars m = natChars n) :
    m = n := by
  have hm := decodeChars_natChars m
  have hn := decodeChars_natChars n
  rw [h] at hm
  omega

theorem commandIdOf_injective {m n : Nat}
    (h : commandIdOf m = commandIdOf n) : m = n := by
  unfold commandIdOf at h
  have hdata : ['c', 'm', 'd', '_'] ++ natChars m
      = ['c', 'm', 'd', '_'] ++ natChars n := congrArg String.data h
  exact natChars_injective (List.append_cancel_left hdata)

theorem commandIdValue_commandIdOf (t : Nat) :
    commandIdValue (commandIdOf t) = t := by
  show decodeChars (List.drop 4 (['c', 'm', 'd', '_'] ++ natChars t)) = t
  exact decodeChars_natChars t

/-- Invariant of every reachable state of the bridge system: the capacity
is 1000, the ghost drain list followed by the pending queue is exactly the
enqueue-order list of all records, the history is the capacity-bounded
suffix of that list, and every record ever created carries status
"queued". -/
def SysInv (s : SysState) : Prop :=
  s.q.max_history = 1000 ∧
  s.dequeued ++ s.q.command_queue = s.enqueued ∧
  s.q.command_history = s.enqueued.drop (s.enqueued.length - 1000) ∧
  ∀ cd ∈ s.enqueued, cd.status = "queued"

theorem sysInv_init : SysInv initSys := by
  refine ⟨rfl, rfl, rfl, ?_⟩
  intro cd h
  simp [initSys] at h

theorem addToHistory_drop (enq : List CommandData) (cd : CommandData) :
    addToHistory (enq.drop (enq.length - 1000)) 1000 cd
      = (enq ++ [cd]).drop (enq.length + 1 - 1000) := by
  have hlendrop : (enq.drop (enq.length - 1000) ++ [cd]).length
      = enq.length - (enq.length - 1000) + 1 := by
    simp
  simp only [addToHistory]
  by_cases hle : enq.length < 1000
  · rw [if_neg (by rw [hlendrop]; omega)]
    have h0 : enq.length - 1000 = 0 := by omega
    have h1 : enq.length + 1 - 1000 = 0 := by omega
    rw [h0, h1, List.drop_zero, List.drop_zero]
  · by_cases heq : enq.length = 1000
    · rw [if_pos (by rw [hlendrop]; omega)]
      have h0 : enq.length - 1000 = 0 := by omega
      have h1 : enq.length + 1 - 1000 = 1 := by omega
      rw [h0, h1, List.drop_zero]
    · have hgt : 1000 < enq.length := by omega
      rw [if_pos (by rw [hlendrop]; omega)]
      rw [List.drop_append_eq_append_drop, List.drop_drop,
        List.drop_append_eq_append_drop]
      have e1 : enq.length - 1000 + 1 = enq.length + 1 - 1000 := by omega
      have e2 : 1 - (enq.drop (enq.length - 1000)).length = 0 := by
        simp
        omega
      have e3 : enq.length + 1 - 1000 - enq.length = 0 := by omega
      rw [e1, e2, e3, List.drop_zero]

theorem sysInv_step (s : SysState) (e : Event) (hs : SysInv s) :
    SysInv (stepEvent s e) := by
  obtain ⟨hmax, hq, hh, hst⟩ := hs
  cases e with
  | enq t c m =>
      refine ⟨hmax, ?_, ?_, ?_⟩
      · show s.dequeued ++ (s.q.command_queue ++ [mkRecord t c m])
            = s.enqueued ++ [mkRecord t c m]
        rw [← List.append_assoc, hq]
      · show addToHistory s.q.command_history s.q.max_history (mkRecord t c m)
            = (s.enqueued ++ [mkRecord t c m]).drop
                ((s.enqueued ++ [mkRecord t c m]).length - 1000)
        rw [hmax, hh]
        simpa using addToHistory_drop s.enqueued (mkRecord t c m)
      · intro cd hcd
        rcases List.mem_append.mp hcd with h1 | h1
        · exact hst cd h1
        · rw [List.mem_singleton.mp h1]
          rfl
  | bridgeStep =>
      cases hqq : s.q.command_queue with
      | nil =>
          have hstep : stepEvent s Event.bridgeStep = s := by
            simp [stepEvent, get_next_command, hqq]
          rw [hstep]
          exact ⟨hmax, hq, hh, hst⟩
      | cons cd rest =>
          have hget : get_next_command s.q
              = (some cd, { s.q with command_queue := rest }) := by
            simp [get_next_command, hqq]
          have hstep : ∃ lg, stepEvent s Event.bridgeStep
              = { s with q := { s.q with command_queue := rest },
                         log := s.log ++ [lg],
                         dequeued := s.dequeued ++ [cd] } := by
            by_cases hsend : send_command s.client cd
            · exact ⟨LogEntry.sentLog cd.id, by simp [stepEvent, hget, hsend]⟩
            · exact ⟨LogEntry.sendFailedLog cd.id,
                by simp [stepEvent, hget, hsend]⟩
          obtain ⟨lg, hstep⟩ := hstep
          rw [hstep]
          refine ⟨hmax, ?_, hh, hst⟩
          show (s.dequeued ++ [cd]) ++ rest = s.enqueued
          rw [List.append_assoc]
          simpa [hqq] using hq
  | connect c => exact ⟨hmax, hq, hh, hst⟩
  | disconnect => exact ⟨hmax, hq, hh, hst⟩
  | result cid ok => exact ⟨hmax, hq, hh, hst⟩

theorem sysInv_run (s : SysState) (evs : List Event) (hs : SysInv s) :
    SysInv (runEvents s evs) := by
  induction evs generalizing s with
  | nil => exact hs
  | cons e evs ih => exact ih (stepEvent s e) (sysInv_step s e hs)

/-- The enqueue-only event used in the capacity-eviction scenario. -/
def enqEvent (i : Nat) : Event := Event.enq i "c" []

theorem runEvents_enq_map (l : List Nat) (s : SysState) :
    (runEvents s (l.map enqEvent)).enqueued
      = s.enqueued ++ l.map (fun i => mkRecord i "c" []) := by
  induction l generalizing s with
  | nil => simp [runEvents]
  | cons i l ih =>
      have h1 : runEvents s ((i :: l).map enqEvent)
          = runEvents (stepEvent s (enqEvent i)) (l.map enqEvent) := rfl
      rw [h1, ih]
      have h2 : (stepEvent s (enqEvent i)).enqueued
          = s.enqueued ++ [mkRecord i "c" []] := rfl
      rw [h2, List.append_assoc]
      rfl

theorem first_record_evicted :
    mkRecord 0 "c" [] ∉
      get_history (runEvents initSys ((List.range 1001).map enqEvent)).q
        1000 := by
  have hinv := sysInv_run initSys ((List.range 1001).map enqEvent) sysInv_init
  have henq : (runEvents initSys ((List.range 1001).map enqEvent)).enqueued
      = (List.range 1001).map (fun i => mkRecord i "c" []) := by
    have h := runEvents_enq_map (List.range 1001) initSys
    rwa [show initSys.enqueued = ([] : List CommandData) from rfl,
      List.nil_append] at h
  have hh := hinv.2.2.1
  rw [henq] at hh
  simp only [List.length_map, List.length_range] at hh
  rw [show (1001 - 1000 : Nat) = 1 from rfl] at hh
  have hhl : (runEvents initSys
      ((List.range 1001).map enqEvent)).q.command_history.length = 1000 := by
    rw [hh]
    simp
  intro hmem
  unfold get_history at hmem
  rw [if_neg (by omega)] at hmem
  rw [hhl] at hmem
  rw [show (1000 - 1000 : Nat) = 0 from rfl, List.drop_zero] at hmem
  rw [hh] at hmem
  have h1001 : List.range 1001 = 0 :: (List.range 1000).map Nat.succ :=
    List.range_succ_eq_map 1000
  rw [h1001] at hmem
  simp only [List.map_cons, List.drop_one, List.tail_cons] at hmem
  rw [List.mem_map] at hmem
  obtain ⟨a, ha, hEq⟩ := hmem
  rw [List.mem_map] at ha
  obtain ⟨j, hj, rfl⟩ := ha
  have htime : (mkRecord (Nat.succ j) "c" []).timestamp
      = (mkRecord 0 "c" []).timestamp := by
    rw [hEq]
  simp only [mkRecord] at htime
  omega

/-- C1 (corrected): the pipeline never advances any record status.  A
record is created with status "queued"; the dispatch loop does not write
"dispatched" on successful delivery and the `command_result` handler does
not write "acknowledged" or "failed" — both only log.  Every record
visible via history therefore always has status "queued", after any
sequence of enqueues, dispatch-loop iterations, connections,
disconnections and result messages. -/
theorem c1_status_constant (evs : List Event) (cd : CommandData)
    (hcd : cd ∈ (runEvents initSys evs).q.command_history) :
    cd.status = "queued" := by
  have hinv := sysInv_run initSys evs sysInv_init
  have hh := hinv.2.2.1
  rw [hh] at hcd
  exact hinv.2.2.2 cd (List.mem_of_mem_drop hcd)

/-- C1 witness: the record enqueued at clock 0 is in history with status
"queued". -/
theorem c1_status_constant_witness :
    (mkRecord 0 "say hi" []).status = "queued" :=
  c1_status_constant [Event.enq 0 "say hi" []] (mkRecord 0 "say hi" [])
    (by decide)

/-- C1 counterexample: a command is enqueued, a session attaches, the
dispatch loop delivers the record through it (the log shows the send),
and a successful `command_result` for its id arrives — yet the record's
status in history is still "queued", not "dispatched" and not
"acknowledged". -/
theorem c1_status_not_advanced_cex :
    ((runEvents initSys
        [Event.enq 0 "setblock 0 64 0 minecraft:stone 0" [],
         Event.connect { cid := 1, sendOk := true },
         Event.bridgeStep,
         Event.result (commandIdOf 0) true]).q.command_history.map
          (fun cd => cd.status)) = ["queued"] ∧
    LogEntry.sentLog (commandIdOf 0) ∈
      (runEvents initSys
        [Event.enq 0 "setblock 0 64 0 minecraft:stone 0" [],
         Event.connect { cid := 1, sendOk := true },
         Event.bridgeStep,
         Event.result (commandIdOf 0) true]).log ∧
    ("queued" ≠ "dispatched") ∧ ("queued" ≠ "acknowledged") := by
  refine ⟨?_, ?_, ?_, ?_⟩ <;> decide

/-- C5 (confirmed): after any sequence of operations the history length
never exceeds the capacity 1000, the history is exactly the most recent
min(total, 1000) records in insertion order (insertion evicts the oldest
once capacity is exceeded), and in the concrete scenario of 1001
enqueues, `history(1000)` excludes the very first command. -/
theorem c5_history_capacity (evs : List Event) :
    (runEvents initSys evs).q.command_history.length ≤ 1000 ∧
    (runEvents initSys evs).q.command_history
      = (runEvents initSys evs).enqueued.drop
          ((runEvents initSys evs).enqueued.length - 1000) ∧
    mkRecord 0 "c" [] ∉
      get_history (runEvents initSys ((List.range 1001).map enqEvent)).q
        1000 := by
  have hinv := sysInv_run initSys evs sysInv_init
  refine ⟨?_, hinv.2.2.1, first_record_evicted⟩
  rw [hinv.2.2.1, List.length_drop]
  omega

/-- C7 (confirmed): under any interleaving of enqueues, dispatch-loop
iterations and connection events, the records drained from the queue, in
drain order, followed by the records still pending, equal the records in
enqueue order: dequeue order is strict FIFO with no record skipped and
none returned twice. -/
theorem c7_fifo_order (evs : List Event) :
    (runEvents initSys evs).dequeued
        ++ (runEvents initSys evs).q.command_queue
      = (runEvents initSys evs).enqueued :=
  (sysInv_run initSys evs sysInv_init).2.1

/-- Spec-side text, from the operation table:
`setblock X Y Z <block> <dataValue>`. -/
def specSetblockText (x y z : Int) (block : String) (dataValue : Int) :
    String :=
  "setblock " ++ toString x ++ " " ++ toString y ++ " " ++ toString z
    ++ " " ++ block ++ " " ++ toString dataValue

/-- Spec-side text, from the operation table: `setblock X Y Z air`. -/
def specRemoveText (x y z : Int) : String :=
  "setblock " ++ toString x ++ " " ++ toString y ++ " " ++ toString z
    ++ " air"

/-- Spec-side text, from the operation table:
`fill X1 Y1 Z1 X2 Y2 Z2 <block> <mode>`. -/
def specFillText (x1 y1 z1 x2 y2 z2 : Int) (block mode : String) : String :=
  "fill " ++ toString x1 ++ " " ++ toString y1 ++ " " ++ toString z1
    ++ " " ++ toString x2 ++ " " ++ toString y2 ++ " " ++ toString z2
    ++ " " ++ block ++ " " ++ mode

/-- Spec-side text, from the operation table:
`clone X1 Y1 Z1 X2 Y2 Z2 DX DY DZ <mode>`. -/
def specCloneText (x1 y1 z1 x2 y2 z2 dx dy dz : Int) (mode : String) :
    String :=
  "clone " ++ toString x1 ++ " " ++ toString y1 ++ " " ++ toString z1
    ++ " " ++ toString x2 ++ " " ++ toString y2 ++ " " ++ toString z2
    ++ " " ++ toString dx ++ " " ++ toString dy ++ " " ++ toString dz
    ++ " " ++ mode

/-- C2 (confirmed): for every block type, integer coordinates, data value
and mode, the builder enqueues exactly the protocol text of the spec's
operation table, and in particular the two concrete scenarios:
`place("minecraft:stone", (100,64,100))` enqueues
"setblock 100 64 100 minecraft:stone 0" and
`fill((0,64,0),(5,64,5),"minecraft:stone","hollow")` enqueues
"fill 0 64 0 5 64 5 minecraft:stone hollow". -/
theorem c2_builder_protocol_text :
    (∀ (q : MinecraftCommandQueue) (t : Nat) (bt : String) (x y z d : Int),
      ((place_block q t bt ⟨x, y, z⟩ d).2.command_queue.map
          (fun cd => cd.command))
        = (q.command_queue.map (fun cd => cd.command))
            ++ [specSetblockText x y z bt d]) ∧
    (∀ (q : MinecraftCommandQueue) (t : Nat) (x y z : Int),
      ((remove_block q t ⟨x, y, z⟩).2.command_queue.map
          (fun cd => cd.command))
        = (q.command_queue.map (fun cd => cd.command))
            ++ [specRemoveText x y z]) ∧
    (∀ (q : MinecraftCommandQueue) (t : Nat) (bt m : String)
        (x1 y1 z1 x2 y2 z2 : Int),
      ((fill_area q t ⟨x1, y1, z1⟩ ⟨x2, y2, z2⟩ bt m).2.command_queue.map
          (fun cd => cd.command))
        = (q.command_queue.map (fun cd => cd.command))
            ++ [specFillText x1 y1 z1 x2 y2 z2 bt m]) ∧
    (∀ (q : MinecraftCommandQueue) (t : Nat) (m : String)
        (x1 y1 z1 x2 y2 z2 dx dy dz : Int),
      ((clone_area q t ⟨x1, y1, z1⟩ ⟨x2, y2, z2⟩ ⟨dx, dy, dz⟩
          m).2.command_queue.map (fun cd => cd.command))
        = (q.command_queue.map (fun cd => cd.command))
            ++ [specCloneText x1 y1 z1 x2 y2 z2 dx dy dz m]) ∧
    place_block_command "minecraft:stone" ⟨100, 64, 100⟩ 0
      = "setblock 100 64 100 minecraft:stone 0" ∧
    fill_area_command ⟨0, 64, 0⟩ ⟨5, 64, 5⟩ "minecraft:stone" "hollow"
      = "fill 0 64 0 5 64 5 minecraft:stone hollow" := by
  refine ⟨?_, ?_, ?_, ?_, by decide, by decide⟩
  · intro q t bt x y z d
    simp [place_block, add_command, mkRecord, place_block_command,
      specSetblockText]
  · intro q t x y z
    simp [remove_block, add_command, mkRecord, remove_block_command,
      specRemoveText]
  · intro q t bt m x1 y1 z1 x2 y2 z2
    simp [fill_area, add_command, mkRecord, fill_area_command, specFillText]
  · intro q t m x1 y1 z1 x2 y2 z2 dx dy dz
    simp [clone_area, add_command, mkRecord, clone_area_command,
      specCloneText]

/-- C3 (corrected): the builder performs no mode validation at all — no
ValidationError exists in the pipeline.  For every mode string outside
the valid sets, `fill_area` and `clone_area` format and enqueue the
command exactly as for a valid mode: the record (carrying the invalid
mode verbatim) is pushed onto the queue, recorded in history, and the
generated id is returned to the caller. -/
theorem c3_invalid_mode_enqueued (q : MinecraftCommandQueue) (t : Nat)
    (fp tp dst : BlockPosition) (bt mode : String)
    (_hf : mode ∉ validFillModes) (_hc : mode ∉ validCloneModes) :
    ((fill_area q t fp tp bt mode).2.command_queue
      = q.command_queue ++ [mkRecord t (fill_area_command fp tp bt mode)
          (fill_area_meta fp tp bt mode)]) ∧
    ((fill_area q t fp tp bt mode).2.command_history
      = addToHistory q.command_history q.max_history
          (mkRecord t (fill_area_command fp tp bt mode)
            (fill_area_meta fp tp bt mode))) ∧
    ((fill_area q t fp tp bt mode).1 = commandIdOf t) ∧
    ((clone_area q t fp tp dst mode).2.command_queue
      = q.command_queue ++ [mkRecord t (clone_area_command fp tp dst mode)
          (clone_area_meta fp tp dst mode)]) ∧
    ((clone_area q t fp tp dst mode).1 = commandIdOf t) :=
  ⟨rfl, rfl, rfl, rfl, rfl⟩

/-- C3 witness: "bogus" is not a valid fill or clone mode, yet the fill
call returns a generated id. -/
theorem c3_invalid_mode_enqueued_witness :
    ("bogus" ∉ validFillModes) ∧ ("bogus" ∉ validCloneModes) ∧
    (fill_area initQueue 0 ⟨0, 64, 0⟩ ⟨5, 64, 5⟩ "minecraft:stone"
        "bogus").1 = commandIdOf 0 :=
  ⟨by decide, by decide,
    (c3_invalid_mode_enqueued initQueue 0 ⟨0, 64, 0⟩ ⟨5, 64, 5⟩
      ⟨10, 64, 10⟩ "minecraft:stone" "bogus" (by decide)
      (by decide)).2.2.1⟩

/-- C3 counterexample: a fill with invalid mode "bogus" raises nothing —
the command (with the invalid mode verbatim) enters both the queue and
the history, contradicting "a ValidationError is raised ... and neither
the queue nor the history is modified"; likewise for clone. -/
theorem c3_validation_missing_cex :
    ("bogus" ∉ validFillModes) ∧
    ((fill_area initQueue 0 ⟨0, 64, 0⟩ ⟨5, 64, 5⟩ "minecraft:stone"
        "bogus").2.command_queue.map (fun cd => cd.command)
      = ["fill 0 64 0 5 64 5 minecraft:stone bogus"]) ∧
    ((fill_area initQueue 0 ⟨0, 64, 0⟩ ⟨5, 64, 5⟩ "minecraft:stone"
        "bogus").2.command_history.length = 1) ∧
    ("bogus" ∉ validCloneModes) ∧
    ((clone_area initQueue 0 ⟨0, 64, 0⟩ ⟨5, 64, 5⟩ ⟨10, 64, 10⟩
        "bogus").2.command_history.length = 1) := by
  refine ⟨?_, ?_, ?_, ?_, ?_⟩ <;> decide

/-- A queue holding exactly one enqueued record, used for the history
limit scenarios. -/
def c4Queue : MinecraftCommandQueue :=
  (add_command initQueue 0 "setblock 0 64 0 minecraft:stone 0" []).2

/-- C4 (corrected): for every limit ≥ 1, `history(limit)` returns exactly
the most recent min(limit, total) records in insertion order, most recent
last; the call is non-destructive (it is a pure function of the state and
returns a suffix of the history).  The claim's range "every limit ≥ 0"
fails at limit = 0, where the Python slice `[-0:]` returns the whole
history. -/
theorem c4_history_limit (q : MinecraftCommandQueue) (limit : Nat)
    (h : 1 ≤ limit) :
    get_history q limit
      = q.command_history.drop (q.command_history.length - limit) ∧
    (get_history q limit).length = min limit q.command_history.length := by
  unfold get_history
  rw [if_neg (by omega)]
  refine ⟨rfl, ?_⟩
  rw [List.length_drop]
  omega

/-- C4 witness: at limit 1 on a one-record history, `history(1)` has
length min(1, 1) = 1. -/
theorem c4_history_limit_witness :
    (1 : Nat) ≤ 1 ∧
    (get_history c4Queue 1).length = min 1 c4Queue.command_history.length :=
  ⟨by decide, (c4_history_limit c4Queue 1 (by decide)).2⟩

/-- C4 counterexample: with one record in history, `history(0)` returns
that record — length 1, not the min(0, 1) = 0 records the claim
requires. -/
theorem c4_limit_zero_cex :
    (get_history c4Queue 0).length = 1 ∧
    ¬ ((get_history c4Queue 0).length
        = min 0 c4Queue.command_history.length) := by
  refine ⟨?_, ?_⟩ <;> decide

/-- C6 (corrected): the id is derived from the enqueue-time clock reading
alone (`f"cmd_{datetime.now().timestamp()}"`), so ids are distinct and
carry strictly increasing embedded clock values provided the clock
strictly advances between enqueue calls; the id returned by `add_command`
is exactly the time-derived one. -/
theorem c6_ids_distinct_of_clock (ts : List Nat)
    (h : ts.Pairwise (fun a b => a < b)) :
    (ts.map commandIdOf).Pairwise (fun a b => a ≠ b) ∧
    (ts.map commandIdOf).Pairwise
      (fun a b => commandIdValue a < commandIdValue b) ∧
    ∀ (q : MinecraftCommandQueue) (t : Nat) (c : String) (m : Metadata),
      (add_command q t c m).1 = commandIdOf t := by
  refine ⟨?_, ?_, fun q t c m => rfl⟩
  · rw [List.pairwise_map]
    exact h.imp (fun hab heq => (Nat.ne_of_lt hab) (commandIdOf_injective heq))
  · rw [List.pairwise_map]
    refine h.imp ?_
    intro a b hab
    rw [commandIdValue_commandIdOf, commandIdValue_commandIdOf]
    exact hab

/-- C6 witness: three enqueues at strictly increasing clock readings 0, 1,
2 yield pairwise distinct ids. -/
theorem c6_ids_distinct_witness :
    ([0, 1, 2] : List Nat).Pairwise (fun a b => a < b) ∧
    (([0, 1, 2] : List Nat).map commandIdOf).Pairwise (fun a b => a ≠ b) :=
  ⟨by decide, (c6_ids_distinct_of_clock [0, 1, 2] (by decide)).1⟩

/-- C6 counterexample: two distinct enqueue calls that observe the same
clock reading produce the same id — the generated ids are neither unique
nor strictly increasing, contradicting the claim for every pair of
distinct calls. -/
theorem c6_same_clock_cex :
    ((runEvents initSys [Event.enq 5 "a" [], Event.enq 5 "b" []]).enqueued.map
        (fun cd => cd.id))
      = [commandIdOf 5, commandIdOf 5] ∧
    ¬ ((runEvents initSys
        [Event.enq 5 "a" [], Event.enq 5 "b" []]).enqueued.map
          (fun cd => cd.id)).Nodup := by
  refine ⟨?_, ?_⟩ <;> decide

theorem no_session_drop_aux (l : List CommandData) (s : SysState)
    (hc : s.client = none) (hq : s.q.command_queue = l) :
    (runEvents s (List.replicate l.length Event.bridgeStep)).q.command_queue
        = [] ∧
    (runEvents s (List.replicate l.length
        Event.bridgeStep)).q.command_history = s.q.command_history ∧
    (runEvents s (List.replicate l.length Event.bridgeStep)).client
        = none ∧
    (runEvents s (List.replicate l.length Event.bridgeStep)).enqueued
        = s.enqueued ∧
    (runEvents s (List.replicate l.length Event.bridgeStep)).dequeued
        = s.dequeued ++ l ∧
    (runEvents s (List.replicate l.length Event.bridgeStep)).log
        = s.log ++ l.map (fun cd => LogEntry.sendFailedLog cd.id) := by
  induction l generalizing s with
  | nil =>
      simp only [List.length_nil, List.replicate_zero]
      exact ⟨hq, rfl, hc, rfl, by simp [runEvents], by simp [runEvents]⟩
  | cons cd rest ih =>
      have hsend : send_command s.client cd = false := by rw [hc]; rfl
      have hget : get_next_command s.q
          = (some cd, { s.q with command_queue := rest }) := by
        simp [get_next_command, hq]
      have hstep : stepEvent s Event.bridgeStep
          = { s with q := { s.q with command_queue := rest },
                     log := s.log ++ [LogEntry.sendFailedLog cd.id],
                     dequeued := s.dequeued ++ [cd] } := by
        simp [stepEvent, hget, hsend]
      have hrun : runEvents s
            (List.replicate (cd :: rest).length Event.bridgeStep)
          = runEvents (stepEvent s Event.bridgeStep)
              (List.replicate rest.length Event.bridgeStep) := by
        rw [List.length_cons, List.replicate_succ]
        rfl
      rw [hrun, hstep]
      obtain ⟨h1, h2, h3, h4, h5, h6⟩ :=
        ih { s with q := { s.q with command_queue := rest },
                    log := s.log ++ [LogEntry.sendFailedLog cd.id],
                    dequeued := s.dequeued ++ [cd] } hc rfl
      refine ⟨h1, ?_, h3, h4, ?_, ?_⟩
      · rw [h2]
      · rw [h5]
        show (s.dequeued ++ [cd]) ++ rest = s.dequeued ++ cd :: rest
        rw [List.append_assoc]
        rfl
      · rw [h6]
        show (s.log ++ [LogEntry.sendFailedLog cd.id])
            ++ rest.map (fun c2 => LogEntry.sendFailedLog c2.id)
          = s.log
            ++ (cd :: rest).map (fun c2 => LogEntry.sendFailedLog c2.id)
        rw [List.append_assoc]
        rfl

/-- C8 (confirmed): with no session attached, one dispatch-loop pass per
queued record empties the queue; each drained record was removed by the
dequeue itself, is never requeued or redelivered (the drained list grows
by exactly the old queue, the enqueued ghost list is untouched), history
is unchanged, and nothing is raised — the failed send is only logged, one
warning per record. -/
theorem c8_no_session_drop (s : SysState) (hc : s.client = none) :
    (runEvents s (List.replicate s.q.command_queue.length
        Event.bridgeStep)).q.command_queue = [] ∧
    (runEvents s (List.replicate s.q.command_queue.length
        Event.bridgeStep)).q.command_history = s.q.command_history ∧
    (runEvents s (List.replicate s.q.command_queue.length
        Event.bridgeStep)).client = none ∧
    (runEvents s (List.replicate s.q.command_queue.length
        Event.bridgeStep)).enqueued = s.enqueued ∧
    (runEvents s (List.replicate s.q.command_queue.length
        Event.bridgeStep)).dequeued = s.dequeued ++ s.q.command_queue ∧
    (runEvents s (List.replicate s.q.command_queue.length
        Event.bridgeStep)).log
      = s.log ++ s.q.command_queue.map
          (fun cd => LogEntry.sendFailedLog cd.id) :=
  no_session_drop_aux s.q.command_queue s hc rfl

/-- The started-and-loaded state of scenario D: three commands enqueued,
no session ever attached. -/
def c8State : SysState :=
  runEvents initSys
    [Event.enq 0 "say one" [], Event.enq 1 "say two" [],
     Event.enq 2 "say three" []]

/-- C8 witness: scenario D — with three commands queued and no session,
one loop pass per command leaves the queue empty. -/
theorem c8_no_session_drop_witness :
    c8State.client = none ∧ c8State.q.command_queue.length = 3 ∧
    (runEvents c8State (List.replicate c8State.q.command_queue.length
        Event.bridgeStep)).q.command_queue = [] :=
  ⟨by decide, by decide, (c8_no_session_drop c8State (by decide)).1⟩

/-- A started system state holding one queued record with a session
attached, used to exhibit the server loop's behaviour. -/
def c9State : SysState :=
  { q := { command_queue := [mkRecord 0 "say hi" []],
           command_history := [mkRecord 0 "say hi" []],
           max_history := 1000 },
    client := some { cid := 7, sendOk := true },
    log := [],
    enqueued := [mkRecord 0 "say hi" []],
    dequeued := [] }

/-- C9 counterexample: `MCPService.start` launches two queue-draining
loops, not exactly one — `MCPServer.start` creates its own
`_process_commands` task and `BridgeManager.start` creates another on the
same queue.  Moreover a record drained by the server loop is not
forwarded to the attached session: its log shows only a processing entry
and no send. -/
theorem c9_two_loops_cex :
    mcpServiceStartTasks.length = 2 ∧
    ¬ (mcpServiceStartTasks.length = 1) ∧
    (serverLoggerStep c9State).q.command_queue = [] ∧
    (serverLoggerStep c9State).log
      = [LogEntry.processedOnlyLog (commandIdOf 0)] := by
  refine ⟨?_, ?_, ?_, ?_⟩ <;> decide

/-- C9 (corrected): after `MCPService.start` two concurrent units drain
the ledger's queue: the server's logging-only processor and the bridge's
forwarding processor.  A queued record is consumed by whichever loop
dequeues it first; one consumed by the server loop is only logged, while
one consumed by the bridge loop is forwarded to the current session. -/
theorem c9_two_dispatch_loops :
    mcpServiceStartTasks
        = [LoopKind.serverLogger, LoopKind.bridgeForwarder] ∧
    ∀ (s : SysState) (cd : CommandData) (rest : List CommandData),
      s.q.command_queue = cd :: rest →
        (serverLoggerStep s).q.command_queue = rest ∧
        (serverLoggerStep s).log
          = s.log ++ [LogEntry.processedOnlyLog cd.id] ∧
        ∀ c : Client, s.client = some c → c.sendOk = true →
          (stepEvent s Event.bridgeStep).log
            = s.log ++ [LogEntry.sentLog cd.id] := by
  refine ⟨rfl, ?_⟩
  intro s cd rest hq
  have hget : get_next_command s.q
      = (some cd, { s.q with command_queue := rest }) := by
    simp [get_next_command, hq]
  refine ⟨?_, ?_, ?_⟩
  · simp [serverLoggerStep, hget]
  · simp [serverLoggerStep, hget]
  · intro c hcl hok
    have hsend : send_command s.client cd = true := by
      rw [hcl]
      exact hok
    simp [stepEvent, hget, hsend]

/-- C9 witness: on a state with one queued record, the server loop drains
it and only logs it. -/
theorem c9_two_dispatch_loops_witness :
    (serverLoggerStep c9State).q.command_queue = [] ∧
    (serverLoggerStep c9State).log
      = c9State.log
          ++ [LogEntry.processedOnlyLog (mkRecord 0 "say hi" []).id] :=
  ⟨(c9_two_dispatch_loops.2 c9State (mkRecord 0 "say hi" []) [] rfl).1,
   (c9_two_dispatch_loops.2 c9State (mkRecord 0 "say hi" []) [] rfl).2.1⟩

/-- Executor A's connection. -/
def clientA : Client := { cid := 1, sendOk := true }

/-- Executor B's connection. -/
def clientB : Client := { cid := 2, sendOk := true }

/-- C10 (confirmed): the handler's `finally` clause clears the current
session unconditionally, even when that connection was already replaced:
after A connects, B connects (replacing A), and A's handler terminates,
the current session is `None`, `is_connected()` is false, and every
subsequent `send_command` returns false (the command is dropped) — even
though B's connection is still open — until a new connection event sets
the session again. -/
theorem c10_stale_disconnect_clears_session :
    (runEvents initSys
        [Event.connect clientA, Event.connect clientB,
         Event.disconnect]).client = none ∧
    is_connected (runEvents initSys
        [Event.connect clientA, Event.connect clientB,
         Event.disconnect]).client = false ∧
    (∀ cd : CommandData,
      send_command (runEvents initSys
        [Event.connect clientA, Event.connect clientB,
         Event.disconnect]).client cd = false) ∧
    (runEvents initSys
        [Event.connect clientA, Event.connect clientB, Event.disconnect,
         Event.connect clientA]).client = some clientA := by
  refine ⟨by decide, by decide, ?_, by decide⟩
  intro cd
  rfl
